import Mathlib

/-!
Shallow embedding of the regular-content service of `crm-backend-lite`
(`regularContent.service.ts`): data model, tag synchronization, content
creation, listing/filtering/pagination, update and deletion, together
with proofs of the specification claims.

Conventions of the embedding:
* the two document collections (Business, RegularContent) are association
  lists keyed by identifier strings; `findById` is first-match lookup;
* JavaScript `undefined`/missing fields are `Option`; JS string truthiness
  (`if (s)`) is "present and non-empty";
* `async`/`await` sequencing is plain sequential state passing (the service
  performs no concurrent writes within one call);
* fallible operations return `Except AppError`;
* the impure clock behind `getTodayDateString` is an explicit
  month/day/year argument;
* result-set ordering (`.sort(...)`) is not modelled: the collection list is
  taken in the order the data store would return it, which is sound for the
  claims here (all are order-independent or about counts);
* `.populate(...)` display-field expansion is external resolution that does
  not change the scalar fields the claims speak about, so records are kept
  unexpanded.
-/

-- HTTP status codes used by the service (`http-status-codes`).
namespace StatusCodes

def NOT_FOUND : Nat := 404

def FORBIDDEN : Nat := 403

end StatusCodes

/-- Model of `AppError(statusCode, message)` from `errorHelpers/AppError`. -/
structure AppError where
  statusCode : Nat
  message : String
deriving DecidableEq, Repr

/-- Propositional equality on service results is decidable (used by the
concrete witnesses). -/
instance instDecidableEqExcept {e a : Type} [DecidableEq e]
    [DecidableEq a] : DecidableEq (Except e a) := fun x y =>
  match x, y with
  | .ok v, .ok w =>
    match decEq v w with
    | isTrue h => isTrue (by rw [h])
    | isFalse h => isFalse (fun hc => h (Except.ok.inj hc))
  | .error v, .error w =>
    match decEq v w with
    | isTrue h => isTrue (by rw [h])
    | isFalse h => isFalse (fun hc => h (Except.error.inj hc))
  | .ok _, .error _ => isFalse (fun hc => Except.noConfusion hc)
  | .error _, .ok _ => isFalse (fun hc => Except.noConfusion hc)

/-- Roles of `UserRole` (`user.interface`). -/
inductive UserRole where
  | SUPER_ADMIN
  | ADMIN
  | CONTENT_WRITER
  | CONTENT_DESIGNER
  | VIDEO_EDITOR
deriving DecidableEq, Repr, BEq

/-- The acting user as the service reads it: `user.id` and `user.roles`. -/
structure User where
  id : String
  roles : List UserRole
deriving DecidableEq, Repr

/-- A Business document: free-text `tags` and the three ordered assignment
lists; every field the service may find absent is an `Option`. -/
structure Business where
  businessName : String := ""
  tags : Option String := none
  assignedCD : Option (List String) := none
  assignedCW : Option (List String) := none
  assignedVE : Option (List String) := none
deriving DecidableEq, Repr

/-- A RegularContent document.  `business` is the referenced business id
(required at creation); the other fields may be missing. -/
structure RegularContent where
  business : String
  addedBy : Option String := none
  assignedCD : Option String := none
  assignedCW : Option String := none
  assignedVE : Option String := none
  contentType : Option String := none
  date : Option String := none
  tags : Option String := none
  status : Option Bool := none
deriving DecidableEq, Repr

/-- A partial content payload (`Partial<IRegularContent>`): every field
optional, `none` meaning "not supplied". -/
structure ContentPayload where
  business : Option String := none
  addedBy : Option String := none
  assignedCD : Option String := none
  assignedCW : Option String := none
  assignedVE : Option String := none
  contentType : Option String := none
  date : Option String := none
  tags : Option String := none
  status : Option Bool := none
deriving DecidableEq, Repr

/-- A document collection: association list keyed by id. -/
abbrev Store (α : Type) := List (String × α)

/-- Lookup `Model.findById(id)`: first entry with the given key, if any. -/
def findById {α : Type} (store : Store α) (id : String) : Option α :=
  (store.find? (fun p => p.fst == id)).map Prod.snd

/-- Update `Model.findByIdAndUpdate(id, ...)` applied as a pure store transform:
rewrite the document at `id` with `f` (no-op when absent). -/
def updateById {α : Type} (store : Store α) (id : String) (f : α → α) :
    Store α :=
  store.map (fun p => if p.fst == id then (p.fst, f p.snd) else p)

/-- Deletion `Model.findByIdAndDelete(id)` as a store transform: drop every entry
with the given key. -/
def deleteById {α : Type} (store : Store α) (id : String) : Store α :=
  store.filter (fun p => !(p.fst == id))

/-- JS string truthiness of an optional string: defined and non-empty. -/
def jsTruthy (o : Option String) : Bool :=
  match o with
  | some s => !s.data.isEmpty
  | none => false

/-- JS `String.prototype.trim()`: drop leading and trailing whitespace.
Stated over the character list so proofs and kernel evaluation do not
depend on the byte-position implementation of core `String.trim`. -/
def jsTrim (s : String) : String :=
  String.mk ((s.data.dropWhile Char.isWhitespace).rdropWhile Char.isWhitespace)

/-- JS `String.prototype.toLowerCase()`, character-wise (the tags in play are
ASCII hashtags). -/
def jsToLower (s : String) : String :=
  String.mk (s.data.map Char.toLower)

/-- JS `String.prototype.startsWith(p)`. -/
def jsStartsWith (s p : String) : Bool :=
  p.data.isPrefixOf s.data

/-- JS `split(/\s+/)` on a string with no leading whitespace: split at
whitespace characters and drop the empty fragments between consecutive
separators (the regex consumes whole runs). -/
def splitWhitespaceRuns (s : String) : List String :=
  ((s.data.splitOnP Char.isWhitespace).filter (fun t => !t.isEmpty)).map
    String.mk

/-- The hashtag pipeline applied alike to content and business tags:
`s.trim().split(/\s+/).filter(t => t.startsWith("#") && t.length > 1)
.map(t => t.toLowerCase())`. -/
def extractHashtags (s : String) : List String :=
  ((splitWhitespaceRuns (jsTrim s)).filter
    (fun tag => jsStartsWith tag "#" && 1 < tag.length)).map jsToLower

/-- Helper `syncTagsToBusiness(businessId, contentTags)`.

Returns the business store after the call together with a flag recording
whether the persistence call (`Business.findByIdAndUpdate`) was made. -/
def syncTagsToBusiness (businesses : Store Business) (businessId : String)
    (contentTags : Option String) : Store Business × Bool :=
  match contentTags with
  | none => (businesses, false)
  | some ct =>
    if (jsTrim ct).data.isEmpty then (businesses, false)
    else
      match findById businesses businessId with
      | none => (businesses, false)
      | some business =>
        let contentHashtags := extractHashtags ct
        let businessTags := business.tags.getD ""
        let businessHashtags := extractHashtags businessTags
        let newHashtags :=
          contentHashtags.filter (fun tag => !businessHashtags.contains tag)
        if newHashtags.isEmpty then (businesses, false)
        else
          let updatedTags :=
            if (jsTrim businessTags).data.isEmpty then
              String.intercalate " " newHashtags
            else
              jsTrim businessTags ++ " " ++ String.intercalate " " newHashtags
          (updateById businesses businessId
            (fun b => { b with tags := some updatedTags }), true)

/-- Service `createRegularContent(user, payload)`: look up the referenced business
(`NotFound` if it does not resolve), then build the stored record as the
spread `{...payload, addedBy: user.id, assignedCD/CW/VE: business.assignedXX
? business.assignedXX[0] : undefined}` (an existing but empty list also
yields `undefined`, as `[][0]` does).  Returns the created record; the
post-create populate step only expands display fields and is not modelled. -/
def createRegularContent (businesses : Store Business) (user : User)
    (payload : ContentPayload) : Except AppError RegularContent :=
  match payload.business with
  | none => .error ⟨StatusCodes.NOT_FOUND, "Business not found"⟩
  | some bid =>
    match findById businesses bid with
    | none => .error ⟨StatusCodes.NOT_FOUND, "Business not found"⟩
    | some business =>
      .ok
        { business := bid
          addedBy := some user.id
          assignedCD := business.assignedCD.bind List.head?
          assignedCW := business.assignedCW.bind List.head?
          assignedVE := business.assignedVE.bind List.head?
          contentType := payload.contentType
          date := payload.date
          tags := payload.tags
          status := payload.status }

/-- The query parameters of `GET /content`
(`IRegularContentQueryParams`): every parameter an optional string. -/
structure QueryParams where
  date : Option String := none
  todayOnly : Option String := none
  business : Option String := none
  assignedCD : Option String := none
  assignedCW : Option String := none
  assignedVE : Option String := none
  addedBy : Option String := none
  status : Option String := none
  contentType : Option String := none
  page : Option String := none
  limit : Option String := none
  sortBy : Option String := none
  sortOrder : Option String := none
deriving DecidableEq, Repr

/-- A `contentType` condition in the Mongo filter object: either the exact
string from the query or the role overlay's `{ $in: [...] }`. -/
inductive ContentTypeCond where
  | exact (s : String)
  | anyOf (l : List String)
deriving DecidableEq, Repr

/-- The filter object `getAllRegularContents` builds (called `filter` in
the source; renamed here to avoid the ambient `Filter` of order theory);
`none` means the key is absent from the filter. -/
structure QueryFilter where
  date : Option String := none
  business : Option String := none
  assignedCD : Option String := none
  assignedCW : Option String := none
  assignedVE : Option String := none
  addedBy : Option String := none
  status : Option Bool := none
  contentType : Option ContentTypeCond := none
deriving DecidableEq, Repr

/-- The server's local calendar date, the impure input of
`getTodayDateString`. -/
structure LocalDate where
  month : Nat
  day : Nat
  year : Nat
deriving DecidableEq, Repr

/-- JS `String(n).padStart(2, "0")`. -/
def padStart2 (n : Nat) : String :=
  let s := toString n
  if s.length < 2 then "0" ++ s else s

/-- Helper `getTodayDateString()`: the current local date as `MM/DD/YYYY` with
zero-padded month and day. -/
def getTodayDateString (today : LocalDate) : String :=
  padStart2 today.month ++ "/" ++ padStart2 today.day ++ "/" ++
    toString today.year

/-- The filter-building prefix of `getAllRegularContents`, line for line:
date/todayOnly, business, the three assignees, addedBy, status,
contentType, then the role-based overlay that overwrites `assignedCD` (or
`assignedVE`) and `contentType` for non-privileged designers/editors. -/
def buildFilter (queryParams : QueryParams) (user : Option User)
    (today : LocalDate) : QueryFilter :=
  let f : QueryFilter := {}
  let f :=
    if queryParams.todayOnly == some "true" then
      { f with date := some (getTodayDateString today) }
    else if jsTruthy queryParams.date then { f with date := queryParams.date }
    else f
  let f :=
    if jsTruthy queryParams.business then
      { f with business := queryParams.business }
    else f
  let f :=
    if jsTruthy queryParams.assignedCD then
      { f with assignedCD := queryParams.assignedCD }
    else f
  let f :=
    if jsTruthy queryParams.assignedCW then
      { f with assignedCW := queryParams.assignedCW }
    else f
  let f :=
    if jsTruthy queryParams.assignedVE then
      { f with assignedVE := queryParams.assignedVE }
    else f
  let f :=
    if jsTruthy queryParams.addedBy then
      { f with addedBy := queryParams.addedBy }
    else f
  let f :=
    if queryParams.status.isSome then
      { f with status := queryParams.status.map (fun s => s == "true") }
    else f
  let f :=
    if jsTruthy queryParams.contentType then
      { f with contentType :=
          queryParams.contentType.map ContentTypeCond.exact }
    else f
  match user with
  | none => f
  | some u =>
    if !u.roles.contains UserRole.SUPER_ADMIN &&
        !u.roles.contains UserRole.ADMIN &&
        !u.roles.contains UserRole.CONTENT_WRITER then
      if u.roles.contains UserRole.CONTENT_DESIGNER then
        { f with assignedCD := some u.id
                 contentType := some (ContentTypeCond.anyOf ["poster", "both"]) }
      else if u.roles.contains UserRole.VIDEO_EDITOR then
        { f with assignedVE := some u.id
                 contentType := some (ContentTypeCond.anyOf ["video", "both"]) }
      else f
    else f

/-- Mongo conjunctive matching of one document against the filter object:
an equality filter on an optional field requires the field to be present
with that value; `$in` requires the present value to be in the list. -/
def matchesFilter (f : QueryFilter) (c : RegularContent) : Bool :=
  (match f.date with
   | some d => c.date == some d
   | none => true) &&
  (match f.business with
   | some b => c.business == b
   | none => true) &&
  (match f.assignedCD with
   | some v => c.assignedCD == some v
   | none => true) &&
  (match f.assignedCW with
   | some v => c.assignedCW == some v
   | none => true) &&
  (match f.assignedVE with
   | some v => c.assignedVE == some v
   | none => true) &&
  (match f.addedBy with
   | some v => c.addedBy == some v
   | none => true) &&
  (match f.status with
   | some b => c.status == some b
   | none => true) &&
  (match f.contentType with
   | some (.exact s) => c.contentType == some s
   | some (.anyOf l) =>
     (match c.contentType with
      | some t => l.contains t
      | none => false)
   | none => true)

/-- JS `queryParams.page || "1"`: the operator `||` falls through on `undefined` and on
the empty string. -/
def jsOrDefault (o : Option String) (dflt : String) : String :=
  match o with
  | some s => if s.isEmpty then dflt else s
  | none => dflt

/-- JS `parseInt(s)` (radix 10): skip leading whitespace, optional sign, then
the longest digit prefix; `none` is `NaN` (no digits). Radix-prefix forms
such as `0x...` are not modelled — the spec only parses plain decimals. -/
def jsParseInt (s : String) : Option Int :=
  let cs := s.toList.dropWhile Char.isWhitespace
  let signAndRest : Int × List Char :=
    match cs with
    | '-' :: rest => (-1, rest)
    | '+' :: rest => (1, rest)
    | rest => (1, rest)
  let digits := signAndRest.snd.takeWhile Char.isDigit
  if digits.isEmpty then none
  else
    some (signAndRest.fst *
      (digits.foldl (fun acc c => acc * 10 + (c.toNat - '0'.toNat)) 0 : Nat))

/-- The pagination block of the response:
`{ total, page, limit, totalPages: Math.ceil(total / limit) }`. -/
structure Pagination where
  total : Nat
  page : Int
  limit : Int
  totalPages : Int
deriving DecidableEq, Repr

/-- Response shape `IRegularContentPaginatedResponse`. -/
structure PaginatedResponse where
  contents : List RegularContent
  pagination : Pagination
deriving DecidableEq, Repr

/-- Service `getAllRegularContents(queryParams, user)` over the content collection
`db` (taken in the order the store returns it under the requested sort;
the claims below are order-independent).  `none` marks the executions in
which the computed `skip`/`limit` leave the domain the excluded
data-store driver accepts (a `NaN` from `parseInt`, a negative skip, or a
non-positive limit); the service itself produces no value there. -/
def getAllRegularContents (db : Store RegularContent)
    (queryParams : QueryParams) (user : Option User) (today : LocalDate) :
    Option PaginatedResponse :=
  let filter := buildFilter queryParams user today
  (jsParseInt (jsOrDefault queryParams.page "1")).bind (fun page =>
    (jsParseInt (jsOrDefault queryParams.limit "20")).bind (fun limit =>
      let skip := (page - 1) * limit
      if 0 ≤ skip ∧ 0 < limit then
        let matched := (db.map Prod.snd).filter (matchesFilter filter)
        some
          { contents := (matched.drop skip.toNat).take limit.toNat
            pagination :=
              { total := matched.length
                page := page
                limit := limit
                -- `Math.ceil(total / limit)`: on the guarded domain
                -- (a natural total, a positive limit) the JS float
                -- ceiling equals this integer formula; the claim-6
                -- theorem proves it equal to the rational ceiling.
                totalPages := ((matched.length : Int) + limit - 1) / limit } }
      else none))

/-- The whole persisted state the service touches: the Business and
RegularContent collections. -/
structure DB where
  businesses : Store Business
  contents : Store RegularContent
deriving DecidableEq, Repr

/-- Membership test `business.assignedXX?.some(id => id.toString() === user.id)`:
optional chaining makes a missing list falsy. -/
def isAssignedIn (assigned : Option (List String)) (userId : String) : Bool :=
  match assigned with
  | some l => l.contains userId
  | none => false

/-- The shared authorization predicate of update/delete: the acting user
appears in at least one of the business's three assignment lists. -/
def isAssignedToBusiness (business : Business) (user : User) : Bool :=
  isAssignedIn business.assignedCW user.id ||
  isAssignedIn business.assignedCD user.id ||
  isAssignedIn business.assignedVE user.id

/-- The admin bypass of update/delete:
`user.roles.includes(SUPER_ADMIN) || user.roles.includes(ADMIN)`. -/
def isAdminUser (user : User) : Bool :=
  user.roles.contains UserRole.SUPER_ADMIN ||
  user.roles.contains UserRole.ADMIN

/-- Field merge of `findByIdAndUpdate(id, payload)`: every field supplied in
the partial payload overwrites the stored one, the rest keep their value.
(`business` may be set to the payload's string even when empty — mongoose
would cast-validate it, which is outside this layer.) -/
def applyPayload (c : RegularContent) (p : ContentPayload) : RegularContent :=
  { business := p.business.getD c.business
    addedBy := match p.addedBy with
      | some v => some v
      | none => c.addedBy
    assignedCD := match p.assignedCD with
      | some v => some v
      | none => c.assignedCD
    assignedCW := match p.assignedCW with
      | some v => some v
      | none => c.assignedCW
    assignedVE := match p.assignedVE with
      | some v => some v
      | none => c.assignedVE
    contentType := match p.contentType with
      | some v => some v
      | none => c.contentType
    date := match p.date with
      | some v => some v
      | none => c.date
    tags := match p.tags with
      | some v => some v
      | none => c.tags
    status := match p.status with
      | some v => some v
      | none => c.status }

/-- Service `updateRegularContent(id, payload, user)`.

Load the record (`NotFound` if absent); unless the user is SUPER_ADMIN or
ADMIN, load the business referenced by the *pre-update* record (`NotFound`
if it no longer exists) and require membership in one of its three
assignment lists (`Forbidden` otherwise); apply the partial update; then,
when the payload carries a truthy `tags`, run the tag sync against the
payload's business if supplied (JS-truthy), else the pre-update record's.
In the source `existingContent.business` may be an ObjectId needing
`toString()`; ids are already strings here.  Returns the updated record
and the new state. -/
def updateRegularContent (db : DB) (id : String) (payload : ContentPayload)
    (user : User) : Except AppError (RegularContent × DB) :=
  match findById db.contents id with
  | none => .error ⟨StatusCodes.NOT_FOUND, "Regular content not found"⟩
  | some existingContent =>
    if !isAdminUser user then
      let businessId := existingContent.business
      match findById db.businesses businessId with
      | none => .error ⟨StatusCodes.NOT_FOUND, "Business not found"⟩
      | some business =>
        if !isAssignedToBusiness business user then
          .error ⟨StatusCodes.FORBIDDEN,
            "You are not authorized to update content for this business"⟩
        else
          updateAndSync db id payload existingContent
    else
      updateAndSync db id payload existingContent
where
  /-- The tail of `updateRegularContent` after the authorization gate:
  `findByIdAndUpdate` (its `null` result branch is unreachable in this
  sequential model because the record was just found), then conditional
  tag sync. -/
  updateAndSync (db : DB) (id : String) (payload : ContentPayload)
      (existingContent : RegularContent) :
      Except AppError (RegularContent × DB) :=
    let contents := updateById db.contents id (fun c => applyPayload c payload)
    match findById contents id with
    | none => .error ⟨StatusCodes.NOT_FOUND, "Regular content not found"⟩
    | some content =>
      if jsTruthy payload.tags then
        let businessId :=
          if jsTruthy payload.business then payload.business.getD ""
          else existingContent.business
        let businesses :=
          (syncTagsToBusiness db.businesses businessId payload.tags).fst
        .ok (content, { businesses := businesses, contents := contents })
      else
        .ok (content, { db with contents := contents })

/-- Service `deleteRegularContent(id, user)`.

Load the (populated) record (`NotFound` if absent); unless the user is
SUPER_ADMIN or ADMIN, load the referenced business (`NotFound` if it was
removed) and require assignment membership (`Forbidden` otherwise); then
`findByIdAndDelete` (whose `null` branch is unreachable sequentially).
The populated-vs-raw `business` type test of the source collapses because
ids are plain strings here.  Returns the new state. -/
def deleteRegularContent (db : DB) (id : String) (user : User) :
    Except AppError DB :=
  match findById db.contents id with
  | none => .error ⟨StatusCodes.NOT_FOUND, "Regular content not found"⟩
  | some content =>
    if !isAdminUser user then
      let businessId := content.business
      match findById db.businesses businessId with
      | none => .error ⟨StatusCodes.NOT_FOUND, "Business not found"⟩
      | some business =>
        if !isAssignedToBusiness business user then
          .error ⟨StatusCodes.FORBIDDEN,
            "You are not authorized to delete content for this business"⟩
        else
          .ok { db with contents := deleteById db.contents id }
    else
      .ok { db with contents := deleteById db.contents id }

/-! ## General lemmas about the embedding -/

/-- Reading back the document just rewritten: `findById` after `updateById`
at the same key sees the rewrite. -/
theorem findById_updateById {α : Type} (store : Store α) (id : String)
    (f : α → α) :
    findById (updateById store id f) id = (findById store id).map f := by
  induction store with
  | nil => rfl
  | cons p t ih =>
    obtain ⟨k, v⟩ := p
    show findById ((if (k == id) = true then (k, f v) else (k, v)) ::
        updateById t id f) id = (findById ((k, v) :: t) id).map f
    by_cases h : (k == id) = true
    · rw [if_pos h]
      unfold findById
      rw [@List.find?_cons_of_pos _ (fun q => q.fst == id) (k, f v) _ h,
        @List.find?_cons_of_pos _ (fun q => q.fst == id) (k, v) _ h]
      rfl
    · rw [if_neg h]
      unfold findById
      rw [@List.find?_cons_of_neg _ (fun q => q.fst == id) (k, v) _
          (by simpa using h),
        @List.find?_cons_of_neg _ (fun q => q.fst == id) (k, v) _
          (by simpa using h)]
      exact ih

/-- Splitting a list all of whose elements are separators produces only
empty fragments. -/
theorem splitOnP_all_sep {α : Type} (p : α → Bool) (t : List α)
    (h : ∀ c ∈ t, p c = true) :
    t.splitOnP p = List.replicate (t.length + 1) [] := by
  induction t with
  | nil => rfl
  | cons a t ih =>
    rw [List.splitOnP_cons, if_pos (h a (List.mem_cons_self a t))]
    rw [ih (fun c hc => h c (List.mem_cons_of_mem a hc))]
    rfl

/-- Appending a separator-only suffix only appends empty fragments to the
split. -/
theorem splitOnP_append_sep_suffix {α : Type} (p : α → Bool) (m t : List α)
    (h : ∀ c ∈ t, p c = true) :
    (m ++ t).splitOnP p = m.splitOnP p ++ List.replicate t.length [] := by
  induction m with
  | nil =>
    simp only [List.nil_append, List.splitOnP_nil]
    rw [splitOnP_all_sep p t h]
    rfl
  | cons a m ih =>
    by_cases ha : p a
    · simp only [List.cons_append, List.splitOnP_cons, if_pos ha, ih,
        List.cons_append]
    · simp only [List.cons_append, List.splitOnP_cons, if_neg ha, ih]
      cases e : m.splitOnP p with
      | nil => exact absurd e (List.splitOnP_ne_nil p m)
      | cons h0 hs => simp [List.modifyHead]

/-- Empty fragments are exactly what the non-empty filter discards. -/
theorem filter_nonEmpty_replicate_nil {α : Type} (k : Nat) :
    (List.replicate k ([] : List α)).filter (fun x => !x.isEmpty) = [] := by
  induction k with
  | zero => rfl
  | succ k ih => simp [List.replicate_succ, List.filter_cons, ih]

/-- Dropping leading separators does not change the non-empty fragments of
the split. -/
theorem filter_splitOnP_dropWhile {α : Type} (p : α → Bool) (l : List α) :
    ((l.dropWhile p).splitOnP p).filter (fun x => !x.isEmpty) =
      (l.splitOnP p).filter (fun x => !x.isEmpty) := by
  induction l with
  | nil => rfl
  | cons a l ih =>
    by_cases ha : p a
    · rw [List.dropWhile_cons_of_pos ha, ih, List.splitOnP_cons, if_pos ha]
      rfl
    · rw [List.dropWhile_cons_of_neg ha]

/-- Dropping trailing separators does not change the non-empty fragments of
the split. -/
theorem filter_splitOnP_rdropWhile {α : Type} (p : α → Bool) (l : List α) :
    ((l.rdropWhile p).splitOnP p).filter (fun x => !x.isEmpty) =
      (l.splitOnP p).filter (fun x => !x.isEmpty) := by
  have hdecomp : l.rdropWhile p ++ l.rtakeWhile p = l := by
    rw [List.rdropWhile, List.rtakeWhile, ← List.reverse_append,
      List.takeWhile_append_dropWhile, List.reverse_reverse]
  conv_rhs => rw [← hdecomp]
  rw [splitOnP_append_sep_suffix p _ _
    (fun c hc => List.mem_rtakeWhile_imp hc)]
  rw [List.filter_append, filter_nonEmpty_replicate_nil, List.append_nil]

/-- Trimming first does not change the whitespace-run split: the JS
`s.trim().split(/\s+/)` tokenization and a direct split of `s` on
whitespace runs agree. -/
theorem splitWhitespaceRuns_jsTrim (s : String) :
    splitWhitespaceRuns (jsTrim s) = splitWhitespaceRuns s := by
  unfold splitWhitespaceRuns jsTrim
  rw [show (String.mk ((s.data.dropWhile Char.isWhitespace).rdropWhile
      Char.isWhitespace)).data =
      (s.data.dropWhile Char.isWhitespace).rdropWhile Char.isWhitespace
    from rfl]
  rw [filter_splitOnP_rdropWhile, filter_splitOnP_dropWhile]

/-- Characterization of `Math.ceil(total / limit)` for a positive limit:
it is the unique `n` with `(n-1)*limit < total ≤ n*limit`. -/
theorem ceil_div_char (t : Nat) (l : Int) (hl : 0 < l) :
    (⌈(t : ℚ) / (l : ℚ)⌉ - 1) * l < (t : Int) ∧
      (t : Int) ≤ ⌈(t : ℚ) / (l : ℚ)⌉ * l := by
  have hlq : (0 : ℚ) < (l : ℚ) := by exact_mod_cast hl
  have h1 : ((t : ℚ) / (l : ℚ)) ≤ (⌈(t : ℚ) / (l : ℚ)⌉ : ℚ) := Int.le_ceil _
  have h2 : ((⌈(t : ℚ) / (l : ℚ)⌉ : ℚ)) < (t : ℚ) / (l : ℚ) + 1 :=
    Int.ceil_lt_add_one _
  constructor
  · have hmul : ((⌈(t : ℚ) / (l : ℚ)⌉ : ℚ) - 1) * l <
        ((t : ℚ) / (l : ℚ)) * l := by
      apply mul_lt_mul_of_pos_right _ hlq
      linarith
    rw [div_mul_cancel₀ _ (ne_of_gt hlq)] at hmul
    exact_mod_cast hmul
  · have hmul : (t : ℚ) / (l : ℚ) * l ≤ (⌈(t : ℚ) / (l : ℚ)⌉ : ℚ) * l :=
      mul_le_mul_of_nonneg_right h1 (le_of_lt hlq)
    rw [div_mul_cancel₀ _ (ne_of_gt hlq)] at hmul
    exact_mod_cast hmul

/-- Destructor for a successful listing call: recover the parsed page and
limit and the exact shape of the response. -/
theorem getAllRegularContents_eq_some (db : Store RegularContent)
    (qp : QueryParams) (user : Option User) (today : LocalDate)
    (r : PaginatedResponse)
    (h : getAllRegularContents db qp user today = some r) :
    ∃ page limit,
      jsParseInt (jsOrDefault qp.page "1") = some page ∧
      jsParseInt (jsOrDefault qp.limit "20") = some limit ∧
      0 ≤ (page - 1) * limit ∧ 0 < limit ∧
      r = { contents := (((db.map Prod.snd).filter
              (matchesFilter (buildFilter qp user today))).drop
              ((page - 1) * limit).toNat).take limit.toNat
            pagination :=
              { total := ((db.map Prod.snd).filter
                  (matchesFilter (buildFilter qp user today))).length
                page := page
                limit := limit
                totalPages := ((((db.map Prod.snd).filter
                  (matchesFilter (buildFilter qp user today))).length : Int) +
                  limit - 1) / limit } } := by
  unfold getAllRegularContents at h
  rw [Option.bind_eq_some] at h
  obtain ⟨page, hp, h⟩ := h
  rw [Option.bind_eq_some] at h
  obtain ⟨limit, hl, h⟩ := h
  by_cases hc : 0 ≤ (page - 1) * limit ∧ 0 < limit
  · rw [if_pos hc] at h
    exact ⟨page, limit, hp, hl, hc.1, hc.2, (Option.some.inj h).symm⟩
  · rw [if_neg hc] at h
    exact absurd h (by simp)

/-- The integer formula used for `totalPages` satisfies the same strict
sandwich as the ceiling. -/
theorem totalPages_formula_char (t : Nat) (l : Int) (hl : 0 < l) :
    ((((t : Int) + l - 1) / l) - 1) * l < (t : Int) ∧
      (t : Int) ≤ (((t : Int) + l - 1) / l) * l := by
  have hne : l ≠ 0 := ne_of_gt hl
  have hdm := Int.ediv_add_emod ((t : Int) + l - 1) l
  have hr0 : 0 ≤ ((t : Int) + l - 1) % l := Int.emod_nonneg _ hne
  have hrl : ((t : Int) + l - 1) % l < l := Int.emod_lt_of_pos _ hl
  constructor <;> nlinarith [hdm, hr0, hrl]

/-- On the domain the service reaches (natural total, positive limit) the
stored `totalPages` is exactly `Math.ceil(total / limit)`. -/
theorem totalPages_eq_ceil (t : Nat) (l : Int) (hl : 0 < l) :
    ((t : Int) + l - 1) / l = ⌈(t : ℚ) / (l : ℚ)⌉ := by
  obtain ⟨h1, h2⟩ := totalPages_formula_char t l hl
  obtain ⟨h3, h4⟩ := ceil_div_char t l hl
  have hcq : ⌈(t : ℚ) / (l : ℚ)⌉ - 1 < ((t : Int) + l - 1) / l :=
    (mul_lt_mul_right hl).mp (lt_of_lt_of_le h3 h2)
  have hqc : ((t : Int) + l - 1) / l - 1 < ⌈(t : ℚ) / (l : ℚ)⌉ :=
    (mul_lt_mul_right hl).mp (lt_of_lt_of_le h1 h4)
  omega

/-! ## Claim theorems -/

/-- Claim C6: `getAllRegularContents` parses `page` and `limit` as integers
with defaults 1 and 20, skips `(page-1)*limit` records and returns at most
`limit` records, and reports `totalPages = ceil(total/limit)` (stated both
as the rational ceiling and by its sandwich characterization); the 45/20
instance is the witness theorem. -/
theorem claim6_pagination (db : Store RegularContent) (qp : QueryParams)
    (user : Option User) (today : LocalDate) (r : PaginatedResponse)
    (h : getAllRegularContents db qp user today = some r) :
    (qp.page = none → r.pagination.page = 1) ∧
    (qp.limit = none → r.pagination.limit = 20) ∧
    r.pagination.total = ((db.map Prod.snd).filter
      (matchesFilter (buildFilter qp user today))).length ∧
    r.contents = (((db.map Prod.snd).filter
      (matchesFilter (buildFilter qp user today))).drop
      (((r.pagination.page - 1) * r.pagination.limit).toNat)).take
      r.pagination.limit.toNat ∧
    r.contents.length ≤ r.pagination.limit.toNat ∧
    r.pagination.totalPages =
      ⌈(r.pagination.total : ℚ) / (r.pagination.limit : ℚ)⌉ ∧
    (r.pagination.totalPages - 1) * r.pagination.limit <
      (r.pagination.total : Int) ∧
    (r.pagination.total : Int) ≤
      r.pagination.totalPages * r.pagination.limit := by
  obtain ⟨page, limit, hp, hl, hskip, hlim, hr⟩ :=
    getAllRegularContents_eq_some db qp user today r h
  subst hr
  refine ⟨?_, ?_, rfl, rfl, ?_, ?_, ?_, ?_⟩
  · intro hnone
    rw [hnone] at hp
    have h1 : jsParseInt (jsOrDefault none "1") = some 1 := by decide
    rw [h1] at hp
    exact (Option.some.inj hp).symm
  · intro hnone
    rw [hnone] at hl
    have h20 : jsParseInt (jsOrDefault none "20") = some 20 := by decide
    rw [h20] at hl
    exact (Option.some.inj hl).symm
  · exact List.length_take_le _ _
  · exact totalPages_eq_ceil _ limit hlim
  · exact (totalPages_formula_char _ limit hlim).1
  · exact (totalPages_formula_char _ limit hlim).2

/-- Witness for claim C6: 45 matching documents at (default) limit 20 and
page 3 yield a 5-document page with `totalPages` equal to the ceiling 3. -/
theorem claim6_pagination_witness :
    (List.replicate 5 ({ business := "b" } : RegularContent)).length ≤
      (20 : Int).toNat ∧
    (3 : Int) = ⌈((45 : Nat) : ℚ) / ((20 : Int) : ℚ)⌉ := by
  have h : getAllRegularContents
      (List.replicate 45 ("c", ({ business := "b" } : RegularContent)))
      { page := some "3" } none ⟨1, 1, 2026⟩ =
      some { contents :=
               List.replicate 5 ({ business := "b" } : RegularContent)
             pagination :=
               { total := 45, page := 3, limit := 20, totalPages := 3 } } := by
    decide
  exact ⟨(claim6_pagination _ _ _ _ _ h).2.2.2.2.1,
    (claim6_pagination _ _ _ _ _ h).2.2.2.2.2.1⟩

/-- The `date` key of the filter is decided by the todayOnly/date cascade
alone; no later step of the filter construction touches it. -/
theorem buildFilter_date (qp : QueryParams) (user : Option User)
    (today : LocalDate) :
    (buildFilter qp user today).date =
      if qp.todayOnly == some "true" then some (getTodayDateString today)
      else if jsTruthy qp.date then qp.date else none := by
  cases user with
  | none =>
    simp only [buildFilter, apply_ite QueryFilter.date, ite_self]
  | some u =>
    simp only [buildFilter, apply_ite QueryFilter.date, ite_self]

/-- For a content designer holding none of the three privileged roles, the
overlay forces `assignedCD` and `contentType` regardless of the query. -/
theorem buildFilter_designer_overlay (qp : QueryParams) (u : User)
    (today : LocalDate)
    (hS : u.roles.contains UserRole.SUPER_ADMIN = false)
    (hA : u.roles.contains UserRole.ADMIN = false)
    (hW : u.roles.contains UserRole.CONTENT_WRITER = false)
    (hD : u.roles.contains UserRole.CONTENT_DESIGNER = true) :
    (buildFilter qp (some u) today).assignedCD = some u.id ∧
    (buildFilter qp (some u) today).contentType =
      some (ContentTypeCond.anyOf ["poster", "both"]) := by
  unfold buildFilter
  simp [hS, hA, hW, hD]

/-- A document matching a filter whose `assignedCD` key is set carries
exactly that assignee. -/
theorem matchesFilter_assignedCD_eq (f : QueryFilter) (c : RegularContent)
    (v : String) (hf : f.assignedCD = some v)
    (h : matchesFilter f c = true) : c.assignedCD = some v := by
  unfold matchesFilter at h
  rw [hf] at h
  simp only [Bool.and_eq_true] at h
  have hcd := h.1.1.1.1.1.2
  simpa using hcd

/-- A document matching a filter whose `contentType` key is a `$in` list
has its content type in that list. -/
theorem matchesFilter_contentType_anyOf (f : QueryFilter)
    (c : RegularContent) (l : List String)
    (hf : f.contentType = some (ContentTypeCond.anyOf l))
    (h : matchesFilter f c = true) :
    ∃ t, c.contentType = some t ∧ t ∈ l := by
  unfold matchesFilter at h
  rw [hf] at h
  simp only [Bool.and_eq_true] at h
  have hct := h.2
  cases hc : c.contentType with
  | none => rw [hc] at hct; simp at hct
  | some t =>
    rw [hc] at hct
    exact ⟨t, rfl, by simpa using hct⟩

/-- Claim C5: `todayOnly="true"` forces the date filter to the server's
current `MM/DD/YYYY` date and makes any supplied `date` parameter
irrelevant; otherwise a supplied (non-empty) `date` is used exactly. -/
theorem claim5_today_filter_precedence (qp : QueryParams)
    (user : Option User) (today : LocalDate) :
    (qp.todayOnly = some "true" →
      (buildFilter qp user today).date = some (getTodayDateString today)) ∧
    (qp.todayOnly ≠ some "true" → ∀ d, qp.date = some d → d ≠ "" →
      (buildFilter qp user today).date = some d) := by
  have hd := buildFilter_date qp user today
  constructor
  · intro h
    rw [hd, if_pos (by simp [h])]
  · intro h d hqd hdne
    have hne : d.data ≠ [] := by
      intro hnil
      exact hdne (String.ext (by rw [hnil]))
    have htruthy : jsTruthy qp.date = true := by
      rw [hqd]
      unfold jsTruthy
      cases hdl : d.data with
      | nil => exact absurd hdl hne
      | cons a as => simp [hdl]
    rw [hd, if_neg (by simp [h]), if_pos htruthy, hqd]

/-- Witness for claim C5: with the clock at January 2, 2026, `todayOnly`
forces `01/02/2026` (zero-padded) over a supplied date; without it the
supplied date is used verbatim. -/
theorem claim5_today_filter_precedence_witness :
    (buildFilter { todayOnly := some "true", date := some "12/31/2020" }
      none ⟨1, 2, 2026⟩).date = some (getTodayDateString ⟨1, 2, 2026⟩) ∧
    getTodayDateString ⟨1, 2, 2026⟩ = "01/02/2026" ∧
    (buildFilter { date := some "05/06/2024" } none ⟨1, 2, 2026⟩).date =
      some "05/06/2024" := by
  refine ⟨(claim5_today_filter_precedence _ none _).1 rfl, by decide, ?_⟩
  exact (claim5_today_filter_precedence _ none _).2 (by decide) _ rfl
    (by decide)

/-- Claim C2: a user holding `CONTENT_DESIGNER` and none of `SUPER_ADMIN`,
`ADMIN`, `CONTENT_WRITER` gets the filter forced to their own `assignedCD`
and `contentType ∈ {poster, both}` — overriding any requested content type
— so every record such a user receives is a poster/both item assigned to
them. -/
theorem claim2_role_scoped_listing (db : Store RegularContent)
    (qp : QueryParams) (u : User) (today : LocalDate)
    (hS : u.roles.contains UserRole.SUPER_ADMIN = false)
    (hA : u.roles.contains UserRole.ADMIN = false)
    (hW : u.roles.contains UserRole.CONTENT_WRITER = false)
    (hD : u.roles.contains UserRole.CONTENT_DESIGNER = true) :
    (buildFilter qp (some u) today).assignedCD = some u.id ∧
    (buildFilter qp (some u) today).contentType =
      some (ContentTypeCond.anyOf ["poster", "both"]) ∧
    (∀ r, getAllRegularContents db qp (some u) today = some r →
      ∀ c ∈ r.contents, c.assignedCD = some u.id ∧
        (c.contentType = some "poster" ∨ c.contentType = some "both")) := by
  obtain ⟨h1, h2⟩ := buildFilter_designer_overlay qp u today hS hA hW hD
  refine ⟨h1, h2, ?_⟩
  intro r hr c hc
  obtain ⟨page, limit, hp, hl, hskip, hlim, hrr⟩ :=
    getAllRegularContents_eq_some db qp (some u) today r hr
  subst hrr
  have hcm : c ∈ (db.map Prod.snd).filter
      (matchesFilter (buildFilter qp (some u) today)) :=
    List.drop_subset _ _ (List.take_subset _ _ hc)
  have hmatch : matchesFilter (buildFilter qp (some u) today) c = true :=
    (List.mem_filter.mp hcm).2
  refine ⟨matchesFilter_assignedCD_eq _ _ _ h1 hmatch, ?_⟩
  obtain ⟨t, hct, htl⟩ := matchesFilter_contentType_anyOf _ _ _ h2 hmatch
  simp only [List.mem_cons, List.mem_singleton] at htl
  rcases htl with h | h | h
  · exact Or.inl (by rw [hct, h])
  · exact Or.inr (by rw [hct, h])
  · exact absurd h (List.not_mem_nil t)

/-- Witness for claim C2: a pure content designer querying
`contentType=video` still receives exactly the poster assigned to them. -/
theorem claim2_role_scoped_listing_witness :
    ({ business := "b", assignedCD := some "u1",
       contentType := some "poster" } : RegularContent).assignedCD =
      some "u1" ∧
    (({ business := "b", assignedCD := some "u1",
        contentType := some "poster" } : RegularContent).contentType =
        some "poster" ∨
      ({ business := "b", assignedCD := some "u1",
         contentType := some "poster" } : RegularContent).contentType =
        some "both") := by
  have h : getAllRegularContents
      [("c1", { business := "b", assignedCD := some "u1",
                contentType := some "poster" }),
       ("c2", { business := "b", assignedCD := some "u1",
                contentType := some "video" }),
       ("c3", { business := "b", assignedCD := some "u2",
                contentType := some "poster" })]
      { contentType := some "video" }
      (some { id := "u1", roles := [UserRole.CONTENT_DESIGNER] })
      ⟨1, 1, 2026⟩ =
      some { contents := [{ business := "b", assignedCD := some "u1",
                            contentType := some "poster" }]
             pagination :=
               { total := 1, page := 1, limit := 20, totalPages := 1 } } := by
    decide
  exact (claim2_role_scoped_listing _ _ _ _ (by decide) (by decide)
    (by decide) (by decide)).2.2 _ h _ (by decide)

/-- The code tokenization agrees with a direct run-split of the untrimmed
string (the claim's phrasing): trimming first changes nothing. -/
theorem extractHashtags_eq_runSplit (s : String) :
    extractHashtags s =
      ((splitWhitespaceRuns s).filter
        (fun tag => jsStartsWith tag "#" && 1 < tag.length)).map jsToLower := by
  unfold extractHashtags
  rw [splitWhitespaceRuns_jsTrim]

/-- Modelled from the claim C1 wording, for refinement comparison: split
both strings on runs of whitespace, keep only tokens starting with `#` of
length greater than one, lower-case every kept token; append to the
business's tag string — preserved verbatim — exactly the lower-cased
content tokens absent from the business's lower-cased token set,
space-separated, in occurrence order. -/
def claimSyncedTagString (businessTags contentTags : String) : String :=
  let kept (s : String) : List String :=
    ((splitWhitespaceRuns s).filter
      (fun tag => jsStartsWith tag "#" && 1 < tag.length)).map jsToLower
  let newTokens :=
    (kept contentTags).filter (fun tag => !(kept businessTags).contains tag)
  if newTokens.isEmpty then businessTags
  else businessTags ++ " " ++ String.intercalate " " newTokens

/-- The amended form of the claim: identical, except that the business's
existing tag text is preserved trimmed of leading and trailing whitespace
(and contributes nothing when whitespace-only), matching the code's
`businessTags.trim()`. -/
def claimSyncedTagStringTrimmed (businessTags contentTags : String) :
    String :=
  let kept (s : String) : List String :=
    ((splitWhitespaceRuns s).filter
      (fun tag => jsStartsWith tag "#" && 1 < tag.length)).map jsToLower
  let newTokens :=
    (kept contentTags).filter (fun tag => !(kept businessTags).contains tag)
  if newTokens.isEmpty then businessTags
  else if (jsTrim businessTags).data.isEmpty then
    String.intercalate " " newTokens
  else jsTrim businessTags ++ " " ++ String.intercalate " " newTokens

/-- Restatement of the amended claim string through the code's own
tokenizer (legitimate because trimming does not change the run-split). -/
theorem claimSyncedTagStringTrimmed_spec (B C : String) :
    claimSyncedTagStringTrimmed B C =
      (let newTokens :=
        (extractHashtags C).filter
          (fun tag => !(extractHashtags B).contains tag)
      if newTokens.isEmpty then B
      else if (jsTrim B).data.isEmpty then String.intercalate " " newTokens
      else jsTrim B ++ " " ++ String.intercalate " " newTokens) := by
  unfold claimSyncedTagStringTrimmed
  rw [extractHashtags_eq_runSplit, extractHashtags_eq_runSplit]

/-- Counterexample to claim C1 as stated: for a business whose tag string
carries leading whitespace, the code trims the existing text instead of
preserving it verbatim. -/
theorem claim1_tag_sync_counterexample :
    (findById (syncTagsToBusiness
        [("b1", { businessName := "Biz", tags := some "  #food" })] "b1"
        (some "#new")).fst "b1").map Business.tags =
      some (some "#food #new") ∧
    claimSyncedTagString "  #food" "#new" = "  #food #new" ∧
    ("#food #new" : String) ≠ "  #food #new" := by
  exact ⟨by decide, by decide, by decide⟩

/-- Claim C1 (amended): for a business with tag string `B`, syncing a
content tag string `C` stores exactly the string described by the claim,
with the existing text trimmed rather than verbatim — including the no-op
cases. -/
theorem claim1_tag_sync_amended (bs : Store Business) (bid : String)
    (b : Business) (B C : String)
    (hfind : findById bs bid = some b) (htags : b.tags = some B) :
    (findById (syncTagsToBusiness bs bid (some C)).fst bid).map
      Business.tags = some (some (claimSyncedTagStringTrimmed B C)) := by
  rw [claimSyncedTagStringTrimmed_spec]
  simp only [syncTagsToBusiness]
  by_cases hC : (jsTrim C).data.isEmpty = true
  · rw [if_pos hC]
    have hCnil : (jsTrim C).data = [] := by simpa using hC
    have hCruns : splitWhitespaceRuns C = [] := by
      rw [← splitWhitespaceRuns_jsTrim]
      have hCe : jsTrim C = "" := String.ext (by rw [hCnil])
      rw [hCe]
      rfl
    have hCex : extractHashtags C = [] := by
      rw [extractHashtags_eq_runSplit, hCruns]
      rfl
    rw [hCex]
    simp [hfind, htags]
  · rw [if_neg hC]
    simp only [hfind, htags, Option.getD_some]
    by_cases hnew : (extractHashtags C).filter
        (fun tag => !(extractHashtags B).contains tag) = []
    · rw [hnew]
      simp [hfind, htags]
    · have hne : ((extractHashtags C).filter
          (fun tag => !(extractHashtags B).contains tag)).isEmpty = false := by
        cases he : (extractHashtags C).filter
            (fun tag => !(extractHashtags B).contains tag) with
        | nil => exact absurd he hnew
        | cons a l => rfl
      rw [hne]
      simp only [Bool.false_eq_true, if_false, findById_updateById, hfind]
      rfl

/-- Witness for claim C1 (amended): the spec's own example — business tags
`"#food #local"` with content tags `"#Food #NEW"` yield
`"#food #local #new"`. -/
theorem claim1_tag_sync_amended_witness :
    (findById (syncTagsToBusiness
        [("b1", { businessName := "Biz", tags := some "#food #local" })] "b1"
        (some "#Food #NEW")).fst "b1").map Business.tags =
      some (some (claimSyncedTagStringTrimmed "#food #local" "#Food #NEW")) ∧
    claimSyncedTagStringTrimmed "#food #local" "#Food #NEW" =
      "#food #local #new" := by
  exact ⟨claim1_tag_sync_amended
    [("b1", { businessName := "Biz", tags := some "#food #local" })] "b1"
    { businessName := "Biz", tags := some "#food #local" }
    "#food #local" "#Food #NEW" (by decide) rfl, by decide⟩

/-- Claim C3: creation fails with `NotFound` when the business reference
does not resolve; otherwise the created record's assignees are the heads
of the business's assignment lists — `none` when a list is absent or
empty, and for `assignedCD = [A, B]` always `A`, never `B`. -/
theorem claim3_create_defaults (bs : Store Business) (u : User)
    (p : ContentPayload) :
    (p.business.bind (findById bs) = none →
      createRegularContent bs u p =
        .error ⟨StatusCodes.NOT_FOUND, "Business not found"⟩) ∧
    (∀ bid b, p.business = some bid → findById bs bid = some b →
      ∃ c, createRegularContent bs u p = .ok c ∧
        c.assignedCD = b.assignedCD.bind List.head? ∧
        c.assignedCW = b.assignedCW.bind List.head? ∧
        c.assignedVE = b.assignedVE.bind List.head? ∧
        ((b.assignedCD = none ∨ b.assignedCD = some []) →
          c.assignedCD = none) ∧
        (∀ A rest, b.assignedCD = some (A :: rest) →
          c.assignedCD = some A)) := by
  constructor
  · intro h
    cases hb : p.business with
    | none => simp only [createRegularContent, hb]
    | some bid =>
      rw [hb] at h
      have h2 : findById bs bid = none := h
      simp only [createRegularContent, hb, h2]
  · intro bid b hb hfind
    have hc : createRegularContent bs u p =
        .ok { business := bid
              addedBy := some u.id
              assignedCD := b.assignedCD.bind List.head?
              assignedCW := b.assignedCW.bind List.head?
              assignedVE := b.assignedVE.bind List.head?
              contentType := p.contentType
              date := p.date
              tags := p.tags
              status := p.status } := by
      simp only [createRegularContent, hb, hfind]
    refine ⟨_, hc, rfl, rfl, rfl, ?_, ?_⟩
    · rintro (h | h) <;> rw [h] <;> rfl
    · intro A rest h
      rw [h]
      rfl

/-- Witness for claim C3: a missing business is `NotFound`; a business
with `assignedCD = [A, B]` yields a record with `assignedCD = A`. -/
theorem claim3_create_defaults_witness :
    createRegularContent [] { id := "u", roles := [] }
        { business := some "nope" } =
      .error ⟨StatusCodes.NOT_FOUND, "Business not found"⟩ ∧
    ∃ c, createRegularContent
        [("b1", { businessName := "Biz", assignedCD := some ["A", "B"],
                  assignedCW := some [], assignedVE := none })]
        { id := "u", roles := [] } { business := some "b1" } = .ok c ∧
      c.assignedCD = some "A" ∧ c.assignedCW = none ∧ c.assignedVE = none := by
  constructor
  · exact (claim3_create_defaults [] { id := "u", roles := [] }
      { business := some "nope" }).1 (by decide)
  · obtain ⟨c, hc, h1, h2, h3, h4, h5⟩ :=
      (claim3_create_defaults
        [("b1", { businessName := "Biz", assignedCD := some ["A", "B"],
                  assignedCW := some [], assignedVE := none })]
        { id := "u", roles := [] } { business := some "b1" }).2 "b1"
        { businessName := "Biz", assignedCD := some ["A", "B"],
          assignedCW := some [], assignedVE := none } rfl (by decide)
    refine ⟨c, hc, h5 "A" ["B"] rfl, ?_, ?_⟩
    · rw [h2]
      rfl
    · rw [h3]
      rfl

/-- Claim C10: at creation the payload's `addedBy`, `assignedCD`,
`assignedCW`, `assignedVE` are irrelevant — the result is invariant under
changing them, `addedBy` is forced to the acting user and the assignees to
the business's primary assignees. -/
theorem claim10_create_overwrites (bs : Store Business) (u : User)
    (p : ContentPayload) (x y z w : Option String) :
    createRegularContent bs u
        { p with addedBy := x, assignedCD := y, assignedCW := z,
                 assignedVE := w } =
      createRegularContent bs u p ∧
    (∀ bid b c, p.business = some bid → findById bs bid = some b →
      createRegularContent bs u p = .ok c →
      c.addedBy = some u.id ∧
      c.assignedCD = b.assignedCD.bind List.head? ∧
      c.assignedCW = b.assignedCW.bind List.head? ∧
      c.assignedVE = b.assignedVE.bind List.head?) := by
  constructor
  · rfl
  · intro bid b c hb hfind hok
    have hc : createRegularContent bs u p =
        .ok { business := bid
              addedBy := some u.id
              assignedCD := b.assignedCD.bind List.head?
              assignedCW := b.assignedCW.bind List.head?
              assignedVE := b.assignedVE.bind List.head?
              contentType := p.contentType
              date := p.date
              tags := p.tags
              status := p.status } := by
      simp only [createRegularContent, hb, hfind]
    rw [hc] at hok
    have := Except.ok.inj hok
    rw [← this]
    exact ⟨rfl, rfl, rfl, rfl⟩

/-- Witness for claim C10: assignee/creator fields smuggled in the payload
change nothing, and the created record credits the acting user and the
business's primary designer. -/
theorem claim10_create_overwrites_witness :
    createRegularContent
        [("b1", { businessName := "Biz", assignedCD := some ["A"] })]
        { id := "me", roles := [] }
        { business := some "b1", addedBy := some "attacker",
          assignedCD := some "X", assignedCW := some "Y",
          assignedVE := some "Z" } =
      createRegularContent
        [("b1", { businessName := "Biz", assignedCD := some ["A"] })]
        { id := "me", roles := [] } { business := some "b1" } ∧
    ({ business := "b1", addedBy := some "me", assignedCD := some "A" }
      : RegularContent).addedBy = some "me" ∧
    ({ business := "b1", addedBy := some "me", assignedCD := some "A" }
      : RegularContent).assignedCD =
      ({ businessName := "Biz", assignedCD := some ["A"] }
        : Business).assignedCD.bind List.head? := by
  have h := claim10_create_overwrites
    [("b1", { businessName := "Biz", assignedCD := some ["A"] })]
    { id := "me", roles := [] } { business := some "b1" }
    (some "attacker") (some "X") (some "Y") (some "Z")
  refine ⟨h.1, ?_, ?_⟩
  · exact (h.2 "b1" { businessName := "Biz", assignedCD := some ["A"] }
      { business := "b1", addedBy := some "me", assignedCD := some "A" }
      rfl (by decide) (by decide)).1
  · exact (h.2 "b1" { businessName := "Biz", assignedCD := some ["A"] }
      { business := "b1", addedBy := some "me", assignedCD := some "A" }
      rfl (by decide) (by decide)).2.1

/-- Claim C4: for a non-admin user, update and delete are `Forbidden`
exactly when the user is in none of the business's three assignment lists;
membership in any list lets the operation proceed. -/
theorem claim4_mutation_authorization (db : DB) (id : String)
    (payload : ContentPayload) (u : User) (content : RegularContent)
    (b : Business)
    (hadm : isAdminUser u = false)
    (hc : findById db.contents id = some content)
    (hb : findById db.businesses content.business = some b) :
    (isAssignedToBusiness b u = false →
      updateRegularContent db id payload u =
        .error ⟨StatusCodes.FORBIDDEN,
          "You are not authorized to update content for this business"⟩ ∧
      deleteRegularContent db id u =
        .error ⟨StatusCodes.FORBIDDEN,
          "You are not authorized to delete content for this business"⟩) ∧
    (isAssignedToBusiness b u = true →
      (∃ c2 db2, updateRegularContent db id payload u = .ok (c2, db2)) ∧
      deleteRegularContent db id u =
        .ok { db with contents := deleteById db.contents id }) := by
  constructor
  · intro hass
    constructor
    · simp [updateRegularContent, hc, hadm, hb, hass]
    · simp [deleteRegularContent, hc, hadm, hb, hass]
  · intro hass
    constructor
    · have hfound : findById (updateById db.contents id
          (fun c => applyPayload c payload)) id =
          some (applyPayload content payload) := by
        rw [findById_updateById, hc]
        rfl
      by_cases ht : jsTruthy payload.tags = true
      · exact ⟨applyPayload content payload,
          { businesses := (syncTagsToBusiness db.businesses
              (if jsTruthy payload.business then payload.business.getD ""
               else content.business) payload.tags).fst
            contents := updateById db.contents id
              (fun c => applyPayload c payload) },
          by simp [updateRegularContent,
            updateRegularContent.updateAndSync, hc, hadm, hb, hass,
            hfound, ht]⟩
      · exact ⟨applyPayload content payload,
          { db with
              contents := updateById db.contents id
                (fun c => applyPayload c payload) },
          by simp [updateRegularContent,
            updateRegularContent.updateAndSync, hc, hadm, hb, hass,
            hfound, ht]⟩
    · simp [deleteRegularContent, hc, hadm, hb, hass]

/-- Witness for claim C4: an unassigned writer is rejected on update and
delete; once listed in `assignedCW`, both operations go through. -/
theorem claim4_mutation_authorization_witness :
    (updateRegularContent
        { businesses := [("b1", { businessName := "Biz" })]
          contents := [("c1", { business := "b1" })] } "c1" {}
        { id := "w", roles := [UserRole.CONTENT_WRITER] } =
      .error ⟨StatusCodes.FORBIDDEN,
        "You are not authorized to update content for this business"⟩) ∧
    (deleteRegularContent
        { businesses := [("b1", { businessName := "Biz" })]
          contents := [("c1", { business := "b1" })] } "c1"
        { id := "w", roles := [UserRole.CONTENT_WRITER] } =
      .error ⟨StatusCodes.FORBIDDEN,
        "You are not authorized to delete content for this business"⟩) ∧
    (∃ c2 db2, updateRegularContent
        { businesses :=
            [("b1", { businessName := "Biz", assignedCW := some ["w"] })]
          contents := [("c1", { business := "b1" })] } "c1" {}
        { id := "w", roles := [UserRole.CONTENT_WRITER] } = .ok (c2, db2)) ∧
    deleteRegularContent
        { businesses :=
            [("b1", { businessName := "Biz", assignedCW := some ["w"] })]
          contents := [("c1", { business := "b1" })] } "c1"
        { id := "w", roles := [UserRole.CONTENT_WRITER] } =
      .ok { businesses :=
              [("b1", { businessName := "Biz", assignedCW := some ["w"] })]
            contents := [] } := by
  have hdeny := claim4_mutation_authorization
    { businesses := [("b1", { businessName := "Biz" })]
      contents := [("c1", { business := "b1" })] } "c1" {}
    { id := "w", roles := [UserRole.CONTENT_WRITER] }
    { business := "b1" } { businessName := "Biz" }
    (by decide) (by decide) (by decide)
  have hallow := claim4_mutation_authorization
    { businesses :=
        [("b1", { businessName := "Biz", assignedCW := some ["w"] })]
      contents := [("c1", { business := "b1" })] } "c1" {}
    { id := "w", roles := [UserRole.CONTENT_WRITER] }
    { business := "b1" } { businessName := "Biz", assignedCW := some ["w"] }
    (by decide) (by decide) (by decide)
  exact ⟨(hdeny.1 (by decide)).1, (hdeny.1 (by decide)).2,
    (hallow.2 (by decide)).1, (hallow.2 (by decide)).2⟩

/-- Counterexample to claim C7 as stated: a SUPER_ADMIN deleting a content
record whose business is gone skips the business lookup entirely and
succeeds instead of failing with `NotFound`. -/
theorem claim7_delete_missing_business_counterexample :
    findById ({ businesses := []
                contents := [("c1", { business := "gone" })] }
      : DB).contents "c1" = some { business := "gone" } ∧
    findById ({ businesses := []
                contents := [("c1", { business := "gone" })] }
      : DB).businesses "gone" = none ∧
    deleteRegularContent
      { businesses := [], contents := [("c1", { business := "gone" })] }
      "c1" { id := "u", roles := [UserRole.SUPER_ADMIN] } =
      .ok { businesses := [], contents := [] } := by
  exact ⟨by decide, by decide, by decide⟩

/-- Claim C7 (amended): for an acting user holding neither `SUPER_ADMIN`
nor `ADMIN`, deleting a content record whose referenced business has been
removed fails with `NotFound` from the business lookup, even though the
content record itself exists. -/
theorem claim7_delete_missing_business (db : DB) (id : String) (u : User)
    (content : RegularContent)
    (hc : findById db.contents id = some content)
    (hadm : isAdminUser u = false)
    (hb : findById db.businesses content.business = none) :
    deleteRegularContent db id u =
      .error ⟨StatusCodes.NOT_FOUND, "Business not found"⟩ := by
  simp [deleteRegularContent, hc, hadm, hb]

/-- Witness for claim C7: a content writer hits the missing-business
lookup and gets `NotFound`. -/
theorem claim7_delete_missing_business_witness :
    deleteRegularContent
      { businesses := [], contents := [("c1", { business := "gone" })] }
      "c1" { id := "u", roles := [UserRole.CONTENT_WRITER] } =
      .error ⟨StatusCodes.NOT_FOUND, "Business not found"⟩ :=
  claim7_delete_missing_business _ _ _ { business := "gone" } (by decide)
    (by decide) (by decide)

/-- Claim C9: the authorization of an update reads only the business of
the pre-update record; a non-admin user assigned there may repoint the
record to a business they are not assigned to (or that does not even
exist) and the update still succeeds. -/
theorem claim9_update_auth_uses_old_business (db : DB) (id : String)
    (payload : ContentPayload) (u : User) (existing : RegularContent)
    (b1 : Business) (newBid : String)
    (hadm : isAdminUser u = false)
    (hc : findById db.contents id = some existing)
    (hb1 : findById db.businesses existing.business = some b1)
    (hass : isAssignedToBusiness b1 u = true)
    (hpb : payload.business = some newBid)
    (_hdiff : newBid ≠ existing.business)
    (_hnew : ∀ b2, findById db.businesses newBid = some b2 →
      isAssignedToBusiness b2 u = false) :
    ∃ c2 db2, updateRegularContent db id payload u = .ok (c2, db2) ∧
      c2.business = newBid := by
  have hfound : findById (updateById db.contents id
      (fun c => applyPayload c payload)) id =
      some (applyPayload existing payload) := by
    rw [findById_updateById, hc]
    rfl
  have hbiz : (applyPayload existing payload).business = newBid := by
    simp [applyPayload, hpb]
  by_cases ht : jsTruthy payload.tags = true
  · exact ⟨applyPayload existing payload,
      { businesses := (syncTagsToBusiness db.businesses
          (if jsTruthy payload.business then payload.business.getD ""
           else existing.business) payload.tags).fst
        contents := updateById db.contents id
          (fun c => applyPayload c payload) },
      by simp [updateRegularContent, updateRegularContent.updateAndSync,
        hc, hadm, hb1, hass, hfound, ht], hbiz⟩
  · exact ⟨applyPayload existing payload,
      { db with
          contents := updateById db.contents id
            (fun c => applyPayload c payload) },
      by simp [updateRegularContent, updateRegularContent.updateAndSync,
        hc, hadm, hb1, hass, hfound, ht], hbiz⟩

/-- Witness for claim C9: a writer assigned to `b1` repoints the record to
`b2`, where they are not assigned; the update succeeds and the stored
business reference is `b2`. -/
theorem claim9_update_auth_uses_old_business_witness :
    (updateRegularContent
        { businesses :=
            [("b1", { businessName := "B1", assignedCW := some ["w"] }),
             ("b2", { businessName := "B2" })]
          contents := [("c1", { business := "b1" })] } "c1"
        { business := some "b2" }
        { id := "w", roles := [UserRole.CONTENT_WRITER] }).isOk = true ∧
    (updateRegularContent
        { businesses :=
            [("b1", { businessName := "B1", assignedCW := some ["w"] }),
             ("b2", { businessName := "B2" })]
          contents := [("c1", { business := "b1" })] } "c1"
        { business := some "b2" }
        { id := "w", roles := [UserRole.CONTENT_WRITER] }).map
      (fun p => p.fst.business) = .ok "b2" := by
  obtain ⟨c2, db2, hok, hbiz⟩ := claim9_update_auth_uses_old_business
    { businesses :=
        [("b1", { businessName := "B1", assignedCW := some ["w"] }),
         ("b2", { businessName := "B2" })]
      contents := [("c1", { business := "b1" })] } "c1"
    { business := some "b2" }
    { id := "w", roles := [UserRole.CONTENT_WRITER] }
    { business := "b1" }
    { businessName := "B1", assignedCW := some ["w"] } "b2"
    (by decide) (by decide) (by decide) (by decide) rfl (by decide)
    (by
      intro b2 h
      have he : some ({ businessName := "B2" } : Business) = some b2 := by
        rw [← h]
        decide
      rw [← Option.some.inj he]
      decide)
  constructor
  · rw [hok]
    rfl
  · rw [hok]
    show Except.ok c2.business = Except.ok "b2"
    rw [hbiz]

/-- A sync against a business id that resolves to nothing is a silent
no-op whatever the tag string is. -/
theorem syncTagsToBusiness_missing (bs : Store Business) (bid : String)
    (h : findById bs bid = none) (o : Option String) :
    syncTagsToBusiness bs bid o = (bs, false) := by
  cases o with
  | none => rfl
  | some ct =>
    by_cases hct : (jsTrim ct).data.isEmpty = true
    · simp [syncTagsToBusiness, hct]
    · simp [syncTagsToBusiness, hct, h]

/-- Claim C8: tag sync is a silent no-op — store unchanged, no persistence
call — when no tag string is supplied, when it is whitespace-only, when it
contributes no new kept hashtag, or when the business is missing; and a
missing business never fails the enclosing update (shown here on the
update path that reaches the sync with a dangling business reference). -/
theorem claim8_tag_sync_noop (bs : Store Business) (bid : String) :
    syncTagsToBusiness bs bid none = (bs, false) ∧
    (∀ ct, (jsTrim ct).data.isEmpty = true →
      syncTagsToBusiness bs bid (some ct) = (bs, false)) ∧
    (∀ ct b, findById bs bid = some b →
      (extractHashtags ct).filter
        (fun tag => !(extractHashtags (b.tags.getD "")).contains tag) =
        [] →
      syncTagsToBusiness bs bid (some ct) = (bs, false)) ∧
    (findById bs bid = none →
      ∀ ct, syncTagsToBusiness bs bid (some ct) = (bs, false)) ∧
    (∀ (db : DB) (id : String) (payload : ContentPayload) (u : User)
        (existing : RegularContent),
      findById db.contents id = some existing →
      isAdminUser u = true →
      jsTruthy payload.business = true →
      findById db.businesses (payload.business.getD "") = none →
      updateRegularContent db id payload u =
        .ok (applyPayload existing payload,
          { businesses := db.businesses
            contents := updateById db.contents id
              (fun c => applyPayload c payload) })) := by
  refine ⟨rfl, ?_, ?_, ?_, ?_⟩
  · intro ct h
    simp [syncTagsToBusiness, h]
  · intro ct b hfind hnone
    by_cases hct : (jsTrim ct).data.isEmpty = true
    · simp [syncTagsToBusiness, hct]
    · simp only [syncTagsToBusiness, if_neg hct, hfind]
      rw [hnone]
      rfl
  · intro h ct
    exact syncTagsToBusiness_missing bs bid h (some ct)
  · intro db id payload u existing hc hadm hpb hbn
    have hfound : findById (updateById db.contents id
        (fun c => applyPayload c payload)) id =
        some (applyPayload existing payload) := by
      rw [findById_updateById, hc]
      rfl
    by_cases ht : jsTruthy payload.tags = true
    · simp [updateRegularContent, updateRegularContent.updateAndSync, hc,
        hadm, hfound, ht, hpb, syncTagsToBusiness_missing _ _ hbn]
    · simp [updateRegularContent, updateRegularContent.updateAndSync, hc,
        hadm, hfound, ht]

/-- Witness for claim C8: hashtag-free content tags leave the business
untouched with no write; an admin update that repoints the record to a
vanished business still succeeds. -/
theorem claim8_tag_sync_noop_witness :
    syncTagsToBusiness
      [("b1", { businessName := "Biz", tags := some "#food" })] "b1"
      (some "plain words only") =
      ([("b1", { businessName := "Biz", tags := some "#food" })], false) ∧
    syncTagsToBusiness [] "nope" (some "#new") = ([], false) ∧
    updateRegularContent
        { businesses := []
          contents := [("c1", { business := "b1" })] } "c1"
        { business := some "gone", tags := some "#new" }
        { id := "a", roles := [UserRole.ADMIN] } =
      .ok ({ business := "gone", tags := some "#new" },
        { businesses := []
          contents := [("c1", { business := "gone", tags := some "#new" })] }) := by
  refine ⟨?_, ?_, ?_⟩
  · exact (claim8_tag_sync_noop
      [("b1", { businessName := "Biz", tags := some "#food" })]
      "b1").2.2.1 "plain words only"
      { businessName := "Biz", tags := some "#food" } (by decide) (by decide)
  · exact (claim8_tag_sync_noop [] "nope").2.2.2.1 (by decide) "#new"
  · exact (claim8_tag_sync_noop [] "c1").2.2.2.2
      { businesses := []
        contents := [("c1", { business := "b1" })] } "c1"
      { business := some "gone", tags := some "#new" }
      { id := "a", roles := [UserRole.ADMIN] }
      { business := "b1" } (by decide) (by decide) (by decide) (by decide)
